import Mathlib

/-!
Verification of the momentum-trading engine (binancets-deploy).

The TypeScript sources are shallowly embedded over exact rationals (ℚ):
every numeric formula of the source is translated literally, `toFixed(d)`
followed by `parseFloat` is modelled as rounding to `d` decimal places with
ties rounded up (the positive-value behaviour of `toFixed`), fallible code
returns `Option`/`Except`, and the gateway network calls are abstracted as
explicit outcome oracles.
-/

namespace Binancets

/-- Direction of an open position (`trigger_side` in the source). -/
inductive Side where
  | long : Side
  | short : Side
deriving DecidableEq, Repr

/-- A kline/candle value (src/lib/interfaces.ts `Candle`), restricted to the
fields the analysed code reads.  `openPrice` stands for the source field
`open`, which is a keyword here. -/
structure Candle where
  openTime : ℤ
  openPrice : ℚ
  high : ℚ
  low : ℚ
  close : ℚ
  volume : ℚ
  closeTime : ℤ
deriving DecidableEq, Repr

/-- Per-(account,symbol) position record (src/lib/interfaces.ts `Position`).
`status` is a boolean in the source: `false` covers the idle and armed
states (armed = `lock_close_price` set), `true` the entered/open states. -/
structure Position where
  status : Bool
  entry_price : Option ℚ
  triggers : List ℚ
  stop_prices : List ℚ
  trigger_side : Option Side
  lock_close_price : Option ℚ
  movement_threshold : Option ℚ
  is_placing_stop_loss_running : Bool
deriving DecidableEq, Repr

/-- `parseFloat(value.toFixed(precision))` (TradeManager.roundToPrecision):
round to `precision` decimal places, ties away from zero for the positive
values the engine handles (ES `toFixed` picks the larger candidate). -/
def roundToPrecision (value : ℚ) (precision : ℕ) : ℚ :=
  ((round (value * 10 ^ precision) : ℤ) : ℚ) / 10 ^ precision

/-- `parseFloat(x.toFixed(8))`, the storage rounding of the trigger ladder. -/
def round8 (x : ℚ) : ℚ := roundToPrecision x 8

/-! ## Trigger ladder (calculate-triggers.ts `calculateTriggers`) -/

/-- Initial trailing-stop seed of `calculateTriggers`:
long `E·(1 − m/100 − f/100)`, short `E·(1 + m/100 + f/100)`. -/
def initialStopPrice (entryPrice : ℚ) (direction : Side) (m f : ℚ) : ℚ :=
  match direction with
  | .long => entryPrice * (1 - m / 100 - f / 100)
  | .short => entryPrice * (1 + m / 100 + f / 100)

/-- Body of the `for (let i = 1; i <= count; i++)` loop of `calculateTriggers`:
`i` is the current loop index, the second argument the remaining iterations,
`s` the current (unrounded) stop price.  Each iteration pushes the rounded
trigger and stop price and carries the unrounded stop forward. -/
def calculateTriggersLoop (entryPrice : ℚ) (direction : Side) (m f : ℚ) :
    ℕ → ℕ → ℚ → List ℚ × List ℚ
  | _, 0, _ => ([], [])
  | i, k + 1, s =>
    let triggerPrice : ℚ :=
      match direction with
      | .long => entryPrice * (1 + (i * m) / 100)
      | .short => entryPrice * (1 - (i * m) / 100)
    let stopPrice : ℚ :=
      match direction with
      | .long => s * (1 + m / 100 + f / 100)
      | .short => s * (1 - m / 100 - f / 100)
    let rest := calculateTriggersLoop entryPrice direction m f (i + 1) k stopPrice
    (round8 triggerPrice :: rest.1, round8 stopPrice :: rest.2)

/-- `calculateTriggers(entryPrice, direction, …, count)`: the pure ladder
computation, with `m` the position's `movement_threshold` and `f` the pair's
`fees_exemption_percentage`.  Returns `(triggers, stopPrices)`. -/
def calculateTriggers (entryPrice : ℚ) (direction : Side) (m f : ℚ)
    (count : ℕ) : List ℚ × List ℚ :=
  calculateTriggersLoop entryPrice direction m f 1 count
    (initialStopPrice entryPrice direction m f)

/-! Spec-side restatement of the ladder formulas (used to state the claim,
compared against the source embedding above). -/

/-- Spec formula for the i-th trigger: `E·(1 + i·m')` long, `E·(1 − i·m')`
short, with `m' = m/100`. -/
def specTrigger (entryPrice : ℚ) (direction : Side) (m : ℚ) (i : ℕ) : ℚ :=
  match direction with
  | .long => entryPrice * (1 + (i : ℚ) * (m / 100))
  | .short => entryPrice * (1 - (i : ℚ) * (m / 100))

/-- Spec stop-price seed `S₀`: `E·(1 − m' − f')` long, `E·(1 + m' + f')`
short. -/
def specStopSeed (entryPrice : ℚ) (direction : Side) (m f : ℚ) : ℚ :=
  match direction with
  | .long => entryPrice * (1 - m / 100 - f / 100)
  | .short => entryPrice * (1 + m / 100 + f / 100)

/-- One spec stop-price step: `S_i = S_{i-1}·(1 + m' + f')` long,
`S_i = S_{i-1}·(1 − m' − f')` short. -/
def specStopStep (direction : Side) (m f : ℚ) (s : ℚ) : ℚ :=
  match direction with
  | .long => s * (1 + m / 100 + f / 100)
  | .short => s * (1 - m / 100 - f / 100)

/-- The spec stop-price chain `S_i`, iterated unrounded from the seed. -/
def specStopSeq (entryPrice : ℚ) (direction : Side) (m f : ℚ) : ℕ → ℚ
  | 0 => specStopSeed entryPrice direction m f
  | n + 1 => specStopStep direction m f (specStopSeq entryPrice direction m f n)

/-! ## Candle history (src/lib/deque.ts `addCandleToQueue`) -/

/-- `addCandleToQueue(candles, candle, maxLength)`: if the queue already holds
`maxLength` (or more) candles, `shift()` the oldest, then `push` the new one.
The source performs no `open_time` comparison. -/
def addCandleToQueue (candles : List Candle) (candle : Candle)
    (maxLength : ℕ) : List Candle :=
  (if maxLength ≤ candles.length then candles.tail else candles) ++ [candle]

/-- Strict chronological ordering of a candle sequence by `open_time`. -/
def Chronological (candles : List Candle) : Prop :=
  List.Pairwise (fun a b => a.openTime < b.openTime) candles

instance : DecidablePred Chronological := fun l =>
  inferInstanceAs (Decidable (List.Pairwise _ l))

/-! ## Movement detector (src/lib/process-candles.ts `processCandles`) -/

/-- `math.abs((close − open) / open) * 100`: absolute candle movement as a
percentage of the open price. -/
def diffPct (c : Candle) : ℚ := |(c.close - c.openPrice) / c.openPrice| * 100

/-- `dynamicThreshold = threshold * math.mean(diffs)` over a candle list. -/
def dynamicThreshold (threshold : ℚ) (candles : List Candle) : ℚ :=
  threshold * ((candles.map diffPct).sum / (candles.map diffPct).length)

/-- `math.sum(diffs.slice(-numPrev))`: sum of the last `numPrev` entries of
the movement percentages (all of them when fewer are present; `numPrev` is a
positive config value). -/
def pastDiffsSum (numPrev : ℕ) (candles : List Candle) : ℚ :=
  ((candles.map diffPct).drop ((candles.map diffPct).length - numPrev)).sum

/-- The trigger decision of `processCandles(symbol, currentCandle, …)`:
`none` models the thrown error on an empty history, otherwise
`currentDiff > dynamicThreshold && currentDiff > pastDiffsSum` over the
history snapshot `candles` it was handed. -/
def processCandles (threshold : ℚ) (numPrev : ℕ) (candles : List Candle)
    (currentCandle : Candle) : Option Bool :=
  if candles.isEmpty then none
  else
    some (decide (diffPct currentCandle > dynamicThreshold threshold candles ∧
      diffPct currentCandle > pastDiffsSum numPrev candles))

/-! ## Entry engine (src/lib/movement-threshold.ts `checkMovementThreshold`) -/

/-- Order side submitted to the gateway. -/
inductive OrderSide where
  | buy : OrderSide
  | sell : OrderSide
deriving DecidableEq, Repr

/-- The entry decision of `checkMovementThreshold`: given the stored position
(or `none` when `getPositionData` found nothing) and the tick price, returns
the `(side, stopPrice)` pair passed to `placePositionWithStopLoss`, or `none`
when no entry is requested.  JS truthiness is kept: a zero
`lock_close_price` or `movement_threshold` is falsy and acts as absent. -/
def checkMovementThreshold (positionData : Option Position) (currentPrice : ℚ) :
    Option (OrderSide × ℚ) :=
  match positionData with
  | none => none
  | some pos =>
    match pos.lock_close_price, pos.status with
    | some lockClosePrice, false =>
      if lockClosePrice = 0 then none
      else
        match pos.movement_threshold with
        | none => none
        | some movementThreshold =>
          if movementThreshold = 0 then none
          else if currentPrice ≥ lockClosePrice * (1 + movementThreshold / 100) then
            some (.buy, currentPrice * (1 - movementThreshold / 100))
          else if currentPrice ≤ lockClosePrice * (1 - movementThreshold / 100) then
            some (.sell, currentPrice * (1 + movementThreshold / 100))
          else none
    | _, _ => none

/-! ## Entry quantity (TradeManager, src/unnamed/part_007) -/

/-- `placePositionWithStopLoss` reconstructs a current price from the stop
price it receives: `stopPrice / (1 + (side === 'BUY' ? -0.01 : 0.01))`. -/
def reconstructedCurrentPrice (side : OrderSide) (stopPrice : ℚ) : ℚ :=
  stopPrice / (1 + (if side = .buy then -(1 / 100 : ℚ) else 1 / 100))

/-- `TradeManager.calculateQuantity`: `usdtAmount / currentPrice` rounded to
the symbol's quantity precision. -/
def calculateQuantity (quantityPrecision : ℕ) (currentPrice usdtAmount : ℚ) : ℚ :=
  roundToPrecision (usdtAmount / currentPrice) quantityPrecision

/-- The quantity `placePositionWithStopLoss` submits with the MARKET entry:
`calculateQuantity` of the reconstructed price, rounded once more to the
quantity precision. -/
def submittedEntryQuantity (side : OrderSide) (quantityPrecision : ℕ)
    (usdtAmount stopPrice : ℚ) : ℚ :=
  roundToPrecision
    (calculateQuantity quantityPrecision (reconstructedCurrentPrice side stopPrice) usdtAmount)
    quantityPrecision

/-- The quantity submitted when a threshold breach at tick price `p` with
movement threshold `m` fires: `checkMovementThreshold` passes
`p·(1 − m/100)` (long) or `p·(1 + m/100)` (short) as the stop price. -/
def entryQuantityAtTick (side : OrderSide) (quantityPrecision : ℕ)
    (usdtAmount p m : ℚ) : ℚ :=
  submittedEntryQuantity side quantityPrecision usdtAmount
    (match side with
     | .buy => p * (1 - m / 100)
     | .sell => p * (1 + m / 100))

/-! ## Trailing-stop gateway call (TradeManager.placeTrailStopLoss) -/

/-- An open order as seen by `getAllOpenOrders`, restricted to the fields
`placeTrailStopLoss` inspects. -/
structure OpenOrder where
  isStopMarket : Bool
  stopPrice : ℚ
deriving DecidableEq, Repr

/-- Outcome of the network calls one `placeTrailStopLoss` invocation makes:
`getAllOpenOrders`, then possibly `cancelAllOpenOrders` and
`submitNewOrder`.  `.error ()` models a thrown transport error. -/
structure GatewayOutcome where
  openOrders : Except Unit (List OpenOrder)
  cancel : Except Unit Unit
  submit : Except Unit Unit

/-- `TradeManager.placeTrailStopLoss(symbol, forSide, stopPrice)`: if a
STOP_MARKET order with the same stop price is already open, return `true`;
otherwise cancel all open orders and submit a new STOP_MARKET, returning
`true`.  Every failing network call is rethrown (`.error ()`); the function
never returns `false`. -/
def placeTrailStopLoss (g : GatewayOutcome) (stopPrice : ℚ) : Except Unit Bool :=
  match g.openOrders with
  | .error e => .error e
  | .ok orders =>
    if orders.any (fun o => o.isStopMarket && decide (o.stopPrice = stopPrice)) then
      .ok true
    else
      match g.cancel with
      | .error e => .error e
      | .ok _ =>
        match g.submit with
        | .error e => .error e
        | .ok _ => .ok true

/-! ## Trigger runner (src/lib/check-triggers.ts `checkTriggers`) -/

/-- Result of one `checkTriggers` invocation: the position it leaves stored,
how many `placeTrailStopLoss` attempts were made, and whether
`closePosition` (the market-order close) was called. -/
structure TriggerRunResult where
  pos : Option Position
  attempts : ℕ
  closedPosition : Bool
deriving DecidableEq, Repr

/-- The `for (let retryCount = 0; retryCount < 3 && !placed; …)` loop of
`checkTriggers`: `k` is the current attempt index, the second argument the
remaining iterations.  Returns the number of attempts made and
`some true` when an attempt returned `true` (placed), `some false` when an
attempt threw (the exception escapes the loop into the outer catch), or
`none` when the loop ran out of iterations without placing. -/
def trailLoop (gw : ℕ → GatewayOutcome) (stopPrice : ℚ) :
    ℕ → ℕ → ℕ × Option Bool
  | _, 0 => (0, none)
  | k, n + 1 =>
    match placeTrailStopLoss (gw k) stopPrice with
    | .error _ => (1, some false)
    | .ok true => (1, some true)
    | .ok false =>
      let r := trailLoop gw stopPrice (k + 1) n
      (r.1 + 1, r.2)

/-- `checkTriggers(token, symbol, currentPrice, …)` on one tick, with
`processing` the module-level `processingTriggers` flag for the pair and
`gw k` the gateway outcome of the k-th `placeTrailStopLoss` attempt.
Guards: missing position data, falsy `status`, an empty `triggers` or
`stop_prices` array, or a held processing flag, all return without acting.
When the head trigger is crossed, the trailing stop is attempted; on
success both heads are removed together, on a thrown transport error the
exception is caught and the position is left untouched, and only an
exhausted loop (`placed` still false) calls `closePosition`. -/
def checkTriggersRun (processing : Bool) (positionData : Option Position)
    (currentPrice : ℚ) (gw : ℕ → GatewayOutcome) : TriggerRunResult :=
  match positionData with
  | none => ⟨none, 0, false⟩
  | some pos =>
    if pos.status = false ∨ pos.triggers = [] ∨ pos.stop_prices = [] then
      ⟨some pos, 0, false⟩
    else if processing then ⟨some pos, 0, false⟩
    else
      let isLong := pos.trigger_side = some .long
      let fire :=
        if isLong then currentPrice ≥ pos.triggers.headD 0
        else currentPrice ≤ pos.triggers.headD 0
      if fire then
        match trailLoop gw (pos.stop_prices.headD 0) 0 3 with
        | (a, some true) =>
          ⟨some { pos with triggers := pos.triggers.tail,
                           stop_prices := pos.stop_prices.tail }, a, false⟩
        | (a, some false) => ⟨some pos, a, false⟩
        | (a, none) => ⟨some pos, a, true⟩
      else ⟨some pos, 0, false⟩

/-! ## Account state (src/lib/account-manager.ts `AccountManager`) -/

/-- A partial position update, the `updates` argument of
`AccountManager.updatePosition`.  A `none` field is absent from the patch;
a present field overrides the stored value, exactly like the JS object
spread `{...position, ...updates}` (explicit nulls included). -/
structure PositionPatch where
  status : Option Bool
  entry_price : Option (Option ℚ)
  triggers : Option (List ℚ)
  stop_prices : Option (List ℚ)
  trigger_side : Option (Option Side)
  lock_close_price : Option (Option ℚ)
  movement_threshold : Option (Option ℚ)
  is_placing_stop_loss_running : Option Bool
deriving DecidableEq, Repr

/-- The empty patch (no field present). -/
def PositionPatch.empty : PositionPatch :=
  ⟨none, none, none, none, none, none, none, none⟩

/-- `{...position, ...updates}`: field-wise merge of a patch into a stored
position. -/
def applyPatch (pos : Position) (u : PositionPatch) : Position where
  status := u.status.getD pos.status
  entry_price := u.entry_price.getD pos.entry_price
  triggers := u.triggers.getD pos.triggers
  stop_prices := u.stop_prices.getD pos.stop_prices
  trigger_side := u.trigger_side.getD pos.trigger_side
  lock_close_price := u.lock_close_price.getD pos.lock_close_price
  movement_threshold := u.movement_threshold.getD pos.movement_threshold
  is_placing_stop_loss_running :=
    u.is_placing_stop_loss_running.getD pos.is_placing_stop_loss_running

/-- Per-account record: the symbol-keyed positions dictionary. -/
structure TokenData where
  positions : List (String × Position)
deriving DecidableEq, Repr

/-- The account-keyed in-memory state document of an `AccountManager`. -/
def AccountData : Type := List (String × TokenData)

instance : DecidableEq AccountData :=
  inferInstanceAs (DecidableEq (List (String × TokenData)))

/-- `getAccountData(token)`: `this.accountData[token] || null`. -/
def getAccountData (data : AccountData) (name : String) : Option TokenData :=
  List.lookup name data

/-- `getPositionData(token, symbol)`: the stored position when both the
account and the symbol entry exist, `null` otherwise. -/
def getPositionData (data : AccountData) (name symbol : String) :
    Option Position :=
  match getAccountData data name with
  | none => none
  | some account => List.lookup symbol account.positions

/-- Replace the value stored under `symbol` in a positions dictionary
(the JS assignment `positions[symbol] = …`). -/
def setPosition (positions : List (String × Position)) (symbol : String)
    (pos : Position) : List (String × Position) :=
  positions.map (fun e => if e.1 = symbol then (e.1, pos) else e)

/-- Replace the record stored under `name` in the account dictionary. -/
def setAccount (data : AccountData) (name : String) (account : TokenData) :
    AccountData :=
  data.map (fun e => if e.1 = name then (e.1, account) else e)

/-- `AccountManager.updatePosition(token, symbol, updates)`: throws when the
account or the symbol entry is missing (modelled as `.error` with the
thrown message, the in-memory data being returned unchanged only on
`.ok`), otherwise merges the patch into the stored position. -/
def updatePosition (data : AccountData) (name symbol : String)
    (updates : PositionPatch) : Except String AccountData :=
  match getAccountData data name with
  | none => .error s!"Account for {name} does not exist."
  | some account =>
    match List.lookup symbol account.positions with
    | none => .error s!"Symbol {symbol} does not exist for account {name}."
    | some pos =>
      .ok (setAccount data name
        ⟨setPosition account.positions symbol (applyPatch pos updates)⟩)

/-- The fresh position record `initializeAccountData` creates for every
configured pair. -/
def initialPosition : Position where
  status := false
  entry_price := none
  triggers := []
  stop_prices := []
  trigger_side := none
  lock_close_price := none
  movement_threshold := none
  is_placing_stop_loss_running := false

/-! ## Patches issued by the engine -/

/-- The arming patch `processCandles` applies on a detector trigger:
`lock_close_price = candle.close`, `movement_threshold = dynamicThreshold/2`. -/
def armPatch (closePrice dynThreshold : ℚ) : PositionPatch :=
  { PositionPatch.empty with
      lock_close_price := some (some closePrice)
      movement_threshold := some (some (dynThreshold / 2)) }

/-- The patch the ladder stores at position open
(`calculateTriggers` → `updatePosition`). -/
def ladderPatch (triggers stopPrices : List ℚ) (direction : Side) : PositionPatch :=
  { PositionPatch.empty with
      triggers := some triggers
      stop_prices := some stopPrices
      trigger_side := some (some direction) }

/-- The reset patch `handleAccountUpdate` applies when the exchange reports
`positionAmount === 0`. -/
def flatResetPatch : PositionPatch :=
  { PositionPatch.empty with
      status := some false
      entry_price := some none
      lock_close_price := some none
      movement_threshold := some none
      triggers := some []
      stop_prices := some []
      trigger_side := some none }

/-- The patch applied for a non-zero reported position:
`status = true`, `entry_price` from the update. -/
def openUpdatePatch (entryPrice : ℚ) : PositionPatch :=
  { PositionPatch.empty with
      status := some true
      entry_price := some (some entryPrice) }

/-- One entry of `updateData.updatedPositions` in an ACCOUNT_UPDATE user-stream
message, restricted to the consumed fields. -/
structure PositionUpdate where
  symbol : String
  positionAmount : ℚ
  entryPrice : ℚ
deriving DecidableEq, Repr

/-- `TradeManager.handleAccountUpdate` for a single updated position:
`positionAmount === 0` applies the full reset patch, anything else records
the entry price and marks the position open. -/
def handleAccountUpdateOne (data : AccountData) (name : String)
    (u : PositionUpdate) : Except String AccountData :=
  if u.positionAmount = 0 then
    updatePosition data name u.symbol flatResetPatch
  else
    updatePosition data name u.symbol (openUpdatePatch u.entryPrice)

/-! ## Spec-modelled multi-account arming step -/

/-- Spec-level position status (the multi-account model distinguishes
idle/armed/entering/open). -/
inductive SpecStatus where
  | idle : SpecStatus
  | armed : SpecStatus
  | entering : SpecStatus
  | opened : SpecStatus
deriving DecidableEq, Repr

/-- Spec-level position record for the multi-account arming step. -/
structure SpecPosition where
  status : SpecStatus
  entry_price : Option ℚ
  triggers : List ℚ
  stop_prices : List ℚ
  trigger_side : Option Side
  lock_close_price : Option ℚ
  movement_threshold : Option ℚ
deriving DecidableEq, Repr

/-- Modelled from the spec: the arming step of the multi-account movement
detector (the multi-account `processCandles` in `lib/process-candles.ts`,
imported by the multi-account engine loop, is not among the sources; only
its trigger arithmetic survives in the single-account variant embedded
above as `processCandles`).  Spec: on trigger, for every account that does
NOT currently have status ∈ \x7bentering, open\x7d for the symbol, set
`lock_close_price = c.close`, `movement_threshold = dynamic_threshold / 2`,
`status = armed`; accounts whose position is already open or entering are
not re-armed. -/
def armAccountsOnTrigger (closePrice dynThreshold : ℚ)
    (accounts : List (String × SpecPosition)) : List (String × SpecPosition) :=
  accounts.map (fun e =>
    if e.2.status = .entering ∨ e.2.status = .opened then e
    else (e.1, { e.2 with
                  lock_close_price := some closePrice
                  movement_threshold := some (dynThreshold / 2)
                  status := .armed }))

/-- Modelled from the spec: the detector step over all accounts — when the
trigger decision (embedded from the source) fires on closed candle `c`
against history snapshot `hist`, arm via `armAccountsOnTrigger`; otherwise
leave every account untouched. -/
def detectorStep (threshold : ℚ) (numPrev : ℕ) (hist : List Candle)
    (c : Candle) (accounts : List (String × SpecPosition)) :
    List (String × SpecPosition) :=
  if processCandles threshold numPrev hist c = some true then
    armAccountsOnTrigger c.close (dynamicThreshold threshold hist) accounts
  else accounts

/-! ## Helper lemmas -/

lemma calculateTriggersLoop_length (E : ℚ) (dir : Side) (m f : ℚ) :
    ∀ (k i : ℕ) (s : ℚ),
      (calculateTriggersLoop E dir m f i k s).1.length = k ∧
      (calculateTriggersLoop E dir m f i k s).2.length = k := by
  intro k
  induction k with
  | zero => intro i s; simp [calculateTriggersLoop]
  | succ k ih =>
    intro i s
    simp only [calculateTriggersLoop, List.length_cons]
    constructor
    · rw [(ih (i + 1) _).1]
    · rw [(ih (i + 1) _).2]

lemma calculateTriggersLoop_trigger_body (E : ℚ) (dir : Side) (m : ℚ) (i : ℕ) :
    (match dir with
     | Side.long => E * (1 + ((i : ℚ) * m) / 100)
     | Side.short => E * (1 - ((i : ℚ) * m) / 100)) = specTrigger E dir m i := by
  cases dir <;> simp only [specTrigger] <;> ring

lemma calculateTriggersLoop_stop_body (dir : Side) (m f s : ℚ) :
    (match dir with
     | Side.long => s * (1 + m / 100 + f / 100)
     | Side.short => s * (1 - m / 100 - f / 100)) = specStopStep dir m f s := by
  cases dir <;> rfl

lemma calculateTriggersLoop_get (E : ℚ) (dir : Side) (m f : ℚ) :
    ∀ (k i : ℕ) (s : ℚ) (j : ℕ), j < k →
      (calculateTriggersLoop E dir m f i k s).1.get? j =
        some (round8 (specTrigger E dir m (i + j))) ∧
      (calculateTriggersLoop E dir m f i k s).2.get? j =
        some (round8 ((specStopStep dir m f)^[j + 1] s)) := by
  intro k
  induction k with
  | zero => intro i s j hj; omega
  | succ k ih =>
    intro i s j hj
    cases j with
    | zero =>
      simp only [calculateTriggersLoop, List.get?_cons_zero, Nat.add_zero,
        Function.iterate_one]
      rw [calculateTriggersLoop_trigger_body, calculateTriggersLoop_stop_body]
      exact ⟨rfl, rfl⟩
    | succ j =>
      have hj' : j < k := by omega
      simp only [calculateTriggersLoop, List.get?_cons_succ]
      rw [calculateTriggersLoop_stop_body]
      obtain ⟨h1, h2⟩ := ih (i + 1) (specStopStep dir m f s) j hj'
      have hidx : i + (j + 1) = (i + 1) + j := by omega
      refine ⟨?_, ?_⟩
      · rw [hidx]; exact h1
      · have hit : (specStopStep dir m f)^[j + 1 + 1] s =
            (specStopStep dir m f)^[j + 1] (specStopStep dir m f s) :=
          Function.iterate_succ_apply (specStopStep dir m f) (j + 1) s
        rw [hit]; exact h2

lemma specStopSeq_iterate (E : ℚ) (dir : Side) (m f : ℚ) :
    ∀ n, specStopSeq E dir m f n =
      (specStopStep dir m f)^[n] (specStopSeed E dir m f) := by
  intro n
  induction n with
  | zero => rfl
  | succ n ih =>
    rw [specStopSeq, ih, Function.iterate_succ_apply' (specStopStep dir m f)]

lemma initialStopPrice_eq_seed (E : ℚ) (dir : Side) (m f : ℚ) :
    initialStopPrice E dir m f = specStopSeed E dir m f := by
  cases dir <;> rfl

lemma lookup_replaceKey {β : Type} (t : String) (v : β) :
    ∀ (l : List (String × β)) (k : String),
      List.lookup k (l.map (fun e => if e.1 = t then (e.1, v) else e)) =
        if k = t then (List.lookup k l).map (fun _ => v) else List.lookup k l := by
  intro l k
  induction l with
  | nil => simp
  | cons e tl ih =>
    obtain ⟨a, b⟩ := e
    simp only [List.map_cons]
    by_cases hat : a = t
    · rw [if_pos hat]
      by_cases hk : k = a
      · subst hk
        rw [hat]
        simp [List.lookup]
      · have hk' : (k == a) = false := beq_eq_false_iff_ne.mpr hk
        simp only [List.lookup, hk', ih]
    · rw [if_neg hat]
      by_cases hk : k = a
      · subst hk
        rw [if_neg hat]
        simp [List.lookup]
      · have hk' : (k == a) = false := beq_eq_false_iff_ne.mpr hk
        simp only [List.lookup, hk', ih]

lemma lookup_setPosition (positions : List (String × Position)) (symbol : String)
    (pos : Position) (k : String) :
    List.lookup k (setPosition positions symbol pos) =
      if k = symbol then (List.lookup k positions).map (fun _ => pos)
      else List.lookup k positions :=
  lookup_replaceKey symbol pos positions k

lemma getAccountData_setAccount (data : AccountData) (name : String)
    (account : TokenData) (k : String) :
    getAccountData (setAccount data name account) k =
      if k = name then (getAccountData data k).map (fun _ => account)
      else getAccountData data k :=
  lookup_replaceKey name account data k

lemma updatePosition_ok (data : AccountData) (name symbol : String)
    (patch : PositionPatch) (pos : Position)
    (hpos : getPositionData data name symbol = some pos) :
    ∃ d, updatePosition data name symbol patch = .ok d ∧
      getPositionData d name symbol = some (applyPatch pos patch) ∧
      ∀ n s, ¬(n = name ∧ s = symbol) →
        getPositionData d n s = getPositionData data n s := by
  rw [getPositionData] at hpos
  cases hacc : getAccountData data name with
  | none => simp [hacc] at hpos
  | some account =>
    simp only [hacc] at hpos
    refine ⟨setAccount data name
      ⟨setPosition account.positions symbol (applyPatch pos patch)⟩, ?_, ?_, ?_⟩
    · simp [updatePosition, hacc, hpos]
    · simp [getPositionData, getAccountData_setAccount, hacc, lookup_setPosition, hpos]
    · intro n s hns
      by_cases hn : n = name
      · subst hn
        have hs : s ≠ symbol := by tauto
        simp [getPositionData, getAccountData_setAccount, hacc, lookup_setPosition, hs]
      · simp [getPositionData, getAccountData_setAccount, hn]

/-! ## Claim theorems -/

/-- C1.  For entry price `E > 0`, direction `d`, movement threshold `m > 0`,
fees exemption `f ≥ 0` and count `N ≥ 1`, `calculateTriggers` produces
`triggers` and `stop_prices` of length `N` with
`trigger_i = E·(1 + i·m')` (long; mirrored short) and
`stop_i = S_{i-1}·(1 + m' + f')` iterated unrounded from the seed
`S₀ = E·(1 − m' − f')`, every stored value rounded to 8 decimal places. -/
theorem calculateTriggers_matches_spec (E m f : ℚ) (dir : Side) (N : ℕ)
    (hE : 0 < E) (hm : 0 < m) (hf : 0 ≤ f) (hN : 1 ≤ N) :
    (calculateTriggers E dir m f N).1.length = N ∧
    (calculateTriggers E dir m f N).2.length = N ∧
    ∀ j, j < N →
      (calculateTriggers E dir m f N).1.get? j =
        some (round8 (specTrigger E dir m (j + 1))) ∧
      (calculateTriggers E dir m f N).2.get? j =
        some (round8 (specStopSeq E dir m f (j + 1))) := by
  refine ⟨(calculateTriggersLoop_length E dir m f N 1 _).1,
    (calculateTriggersLoop_length E dir m f N 1 _).2, ?_⟩
  intro j hj
  obtain ⟨h1, h2⟩ :=
    calculateTriggersLoop_get E dir m f N 1 (initialStopPrice E dir m f) j hj
  rw [Nat.add_comm 1 j] at h1
  constructor
  · simpa only [calculateTriggers] using h1
  · rw [specStopSeq_iterate, ← initialStopPrice_eq_seed]
    simpa only [calculateTriggers] using h2

/-- C1 witness: the claim's concrete scenario `E = 0.5`, long, `m = 1.0`,
`f = 0.1`, `N = 5`, with the published trigger ladder and stop seed. -/
theorem calculateTriggers_matches_spec_witness :
    ((0 : ℚ) < 1 / 2 ∧ (0 : ℚ) < 1 ∧ (0 : ℚ) ≤ 1 / 10 ∧ 1 ≤ 5) ∧
    ((calculateTriggers (1 / 2) .long 1 (1 / 10) 5).1.length = 5 ∧
     (calculateTriggers (1 / 2) .long 1 (1 / 10) 5).2.length = 5 ∧
     ∀ j, j < 5 →
       (calculateTriggers (1 / 2) .long 1 (1 / 10) 5).1.get? j =
         some (round8 (specTrigger (1 / 2) .long 1 (j + 1))) ∧
       (calculateTriggers (1 / 2) .long 1 (1 / 10) 5).2.get? j =
         some (round8 (specStopSeq (1 / 2) .long 1 (1 / 10) (j + 1)))) ∧
    (calculateTriggers (1 / 2) .long 1 (1 / 10) 5).1 =
      [101 / 200, 51 / 100, 103 / 200, 13 / 25, 21 / 40] ∧
    specStopSeed (1 / 2) .long 1 (1 / 10) = 989 / 2000 ∧
    (calculateTriggers (1 / 2) .long 1 (1 / 10) 5).2.get? 0 =
      some (round8 (989 / 2000 * (1011 / 1000))) :=
  ⟨⟨by norm_num, by norm_num, by norm_num, by norm_num⟩,
    calculateTriggers_matches_spec (1 / 2) 1 (1 / 10) .long 5
      (by norm_num) (by norm_num) (by norm_num) (by norm_num),
    by norm_num [calculateTriggers, calculateTriggersLoop, initialStopPrice,
      round8, roundToPrecision, round_eq],
    by norm_num [specStopSeed],
    by norm_num [calculateTriggers, calculateTriggersLoop, initialStopPrice,
      round8, roundToPrecision, round_eq]⟩

/-- A closed candle used in concrete histories. -/
def candleA : Candle := ⟨0, 1, 1, 1, 1, 1, 60⟩

/-- A later closed candle (same prices, next interval). -/
def candleB : Candle := ⟨60, 1, 1, 1, 1, 1, 120⟩

/-- C4 counterexample: `addCandleToQueue` performs no `open_time` comparison.
Re-appending the very same candle (a late update, `open_time` not greater
than the last entry's) does NOT replace the last entry as claimed: it
appends a duplicate, and the resulting history is no longer strictly
chronologically ordered. -/
theorem addCandleToQueue_no_replace_counterexample :
    addCandleToQueue [candleA] candleA 20 = [candleA, candleA] ∧
    (addCandleToQueue [candleA] candleA 20).length = 2 ∧
    ¬ Chronological (addCandleToQueue [candleA] candleA 20) := by
  refine ⟨by simp [addCandleToQueue], by simp [addCandleToQueue], ?_⟩
  simp only [addCandleToQueue, List.length_cons, List.length_nil]
  rw [if_neg (by omega)]
  intro h
  have := List.rel_of_pairwise_cons h (List.mem_singleton.mpr rfl)
  exact absurd this (by simp)

/-- C4 amended: `addCandleToQueue` always appends the candle (evicting the
oldest entry first when the queue already holds the capacity of 20), so a
history of length at most 20 stays at length at most 20, the new candle
always becomes the last entry, and strict chronological order is preserved
exactly when the appended candle is strictly newer than every stored
entry. -/
theorem addCandleToQueue_amended (candles : List Candle) (c : Candle)
    (hlen : candles.length ≤ 20) :
    (addCandleToQueue candles c 20).length ≤ 20 ∧
    (addCandleToQueue candles c 20).getLast? = some c ∧
    (Chronological candles → (∀ a ∈ candles, a.openTime < c.openTime) →
      Chronological (addCandleToQueue candles c 20)) := by
  refine ⟨?_, ?_, ?_⟩
  · simp only [addCandleToQueue]
    by_cases h : 20 ≤ candles.length
    · rw [if_pos h]
      simp only [List.length_append, List.length_tail, List.length_singleton]
      omega
    · rw [if_neg h]
      simp only [List.length_append, List.length_singleton]
      omega
  · simp only [addCandleToQueue]
    exact List.getLast?_concat _
  · intro hchron hbelow
    simp only [addCandleToQueue, Chronological]
    rw [List.pairwise_append]
    refine ⟨?_, List.pairwise_singleton _ _, ?_⟩
    · by_cases h : 20 ≤ candles.length
      · rw [if_pos h]
        exact hchron.sublist (List.tail_sublist candles)
      · rw [if_neg h]
        exact hchron
    · intro a ha b hb
      rw [List.mem_singleton] at hb
      subst hb
      by_cases h : 20 ≤ candles.length
      · rw [if_pos h] at ha
        exact hbelow a (List.mem_of_mem_tail ha)
      · rw [if_neg h] at ha
        exact hbelow a ha

/-- C4 amended witness: appending a strictly newer candle to a singleton
history. -/
theorem addCandleToQueue_amended_witness :
    ([candleA] : List Candle).length ≤ 20 ∧
    ((addCandleToQueue [candleA] candleB 20).length ≤ 20 ∧
     (addCandleToQueue [candleA] candleB 20).getLast? = some candleB ∧
     (Chronological [candleA] → (∀ a ∈ [candleA], a.openTime < candleB.openTime) →
       Chronological (addCandleToQueue [candleA] candleB 20))) :=
  ⟨by simp, addCandleToQueue_amended [candleA] candleB (by simp)⟩

/-- C5.  For a closed candle `c` and a non-empty history snapshot `H` whose
last element is `c`, the detector triggers exactly when
`current_diff > dynamic_threshold` and `current_diff > past_sum`, with
`diff(x) = |x.close − x.open| / x.open · 100`, the dynamic threshold
`pair.threshold` times the mean of the diffs over `H`, and `past_sum` the
sum of the last `num_previous_candles` diffs of `H`. -/
theorem processCandles_trigger_iff (threshold : ℚ) (numPrev : ℕ)
    (hist : List Candle) (c : Candle)
    (hne : hist ≠ []) (hlast : hist.getLast? = some c) :
    processCandles threshold numPrev hist c = some true ↔
      (diffPct c > dynamicThreshold threshold hist ∧
       diffPct c > pastDiffsSum numPrev hist) := by
  rw [processCandles, if_neg (by simpa [List.isEmpty_iff] using hne)]
  simp only [Option.some.injEq, decide_eq_true_eq]

/-- C5 witness: a two-candle history whose last (current) candle moves 100%
against a quiet first candle, with `threshold = 1`, `num_previous = 1`. -/
theorem processCandles_trigger_iff_witness :
    ([candleA, ⟨60, 1, 2, 1, 2, 1, 120⟩] : List Candle) ≠ [] ∧
    ([candleA, ⟨60, 1, 2, 1, 2, 1, 120⟩] : List Candle).getLast? =
      some ⟨60, 1, 2, 1, 2, 1, 120⟩ ∧
    (processCandles 1 1 [candleA, ⟨60, 1, 2, 1, 2, 1, 120⟩] ⟨60, 1, 2, 1, 2, 1, 120⟩ =
        some true ↔
      (diffPct ⟨60, 1, 2, 1, 2, 1, 120⟩ >
          dynamicThreshold 1 [candleA, ⟨60, 1, 2, 1, 2, 1, 120⟩] ∧
       diffPct ⟨60, 1, 2, 1, 2, 1, 120⟩ >
          pastDiffsSum 1 [candleA, ⟨60, 1, 2, 1, 2, 1, 120⟩])) :=
  ⟨by simp, by simp, processCandles_trigger_iff 1 1 _ _ (by simp) (by simp)⟩

/-- C6.  Against an armed position (positive lock price `L` and movement
threshold `m` stored, boolean `status` false, i.e. no open position), the
entry engine requests a BUY with protective stop `p·(1 − m/100)` exactly
when `p ≥ L·(1 + m/100)`, a SELL with protective stop `p·(1 + m/100)`
exactly when `p ≤ L·(1 − m/100)`, and nothing for ticks strictly between
the two thresholds. -/
theorem checkMovementThreshold_breach_iff (pos : Position) (p L m : ℚ)
    (hL : pos.lock_close_price = some L) (hLpos : 0 < L)
    (hst : pos.status = false)
    (hm : pos.movement_threshold = some m) (hmpos : 0 < m) :
    (checkMovementThreshold (some pos) p = some (.buy, p * (1 - m / 100)) ↔
      p ≥ L * (1 + m / 100)) ∧
    (checkMovementThreshold (some pos) p = some (.sell, p * (1 + m / 100)) ↔
      p ≤ L * (1 - m / 100)) ∧
    (L * (1 - m / 100) < p → p < L * (1 + m / 100) →
      checkMovementThreshold (some pos) p = none) := by
  have hgap : L * (1 - m / 100) < L * (1 + m / 100) := by nlinarith
  simp only [checkMovementThreshold, hL, hst, hm]
  rw [if_neg (ne_of_gt hLpos), if_neg (ne_of_gt hmpos)]
  by_cases h1 : p ≥ L * (1 + m / 100)
  · rw [if_pos h1]
    refine ⟨⟨fun _ => h1, fun _ => rfl⟩, ⟨fun h => ?_, fun h => ?_⟩, fun hlow hhigh => ?_⟩
    · exact absurd h (by simp)
    · exact absurd (lt_of_le_of_lt h hgap) (not_lt.mpr h1)
    · exact absurd h1 (not_le.mpr hhigh)
  · rw [if_neg h1]
    by_cases h2 : p ≤ L * (1 - m / 100)
    · rw [if_pos h2]
      refine ⟨⟨fun h => ?_, fun h => ?_⟩, ⟨fun _ => h2, fun _ => rfl⟩, fun hlow _ => ?_⟩
      · exact absurd h (by simp)
      · exact absurd h h1
      · exact absurd h2 (not_le.mpr hlow)
    · rw [if_neg h2]
      refine ⟨⟨fun h => ?_, fun h => ?_⟩, ⟨fun h => ?_, fun h => ?_⟩, fun _ _ => rfl⟩
      · exact absurd h (by simp)
      · exact absurd h h1
      · exact absurd h (by simp)
      · exact absurd h h2

/-- The armed position of the spec's S3 scenario: lock 100, movement
threshold 1. -/
def armedPositionS3 : Position :=
  { initialPosition with lock_close_price := some 100, movement_threshold := some 1 }

/-- C6 witness: the spec's S3 numbers — lock 100, movement threshold 1,
tick 101.01 breaches upward with protective stop `101.01·0.99`. -/
theorem checkMovementThreshold_breach_iff_witness :
    armedPositionS3.lock_close_price = some 100 ∧
    (0 : ℚ) < 100 ∧
    armedPositionS3.status = false ∧
    armedPositionS3.movement_threshold = some 1 ∧
    (0 : ℚ) < 1 ∧
    ((checkMovementThreshold (some armedPositionS3) (10101 / 100) =
        some (.buy, 10101 / 100 * (1 - 1 / 100)) ↔
      (10101 / 100 : ℚ) ≥ 100 * (1 + 1 / 100)) ∧
     (checkMovementThreshold (some armedPositionS3) (10101 / 100) =
        some (.sell, 10101 / 100 * (1 + 1 / 100)) ↔
      (10101 / 100 : ℚ) ≤ 100 * (1 - 1 / 100)) ∧
     ((100 : ℚ) * (1 - 1 / 100) < 10101 / 100 → (10101 / 100 : ℚ) < 100 * (1 + 1 / 100) →
      checkMovementThreshold (some armedPositionS3) (10101 / 100) = none)) :=
  ⟨rfl, by norm_num, rfl, rfl, by norm_num,
    checkMovementThreshold_breach_iff armedPositionS3 (10101 / 100) 100 1 rfl (by norm_num)
      rfl rfl (by norm_num)⟩

/-- C7.  The quantity submitted for a market entry is NOT
`usdt_amount / current_price` in general: `placePositionWithStopLoss`
reconstructs the price from the stop price with a hardcoded ±1%
(`stopPrice / (1 ∓ 0.01)`), which matches the tick price only when the
movement threshold is exactly 1.  At threshold `m = 2`, tick 102,
`usdt_amount = 1000`, quantity precision 2, the code submits 9.90 while
the claimed formula gives 9.80; at `m = 1`, tick 101, they agree. -/
theorem entryQuantity_reconstructed_price_mismatch :
    entryQuantityAtTick .buy 2 1000 102 2 ≠ roundToPrecision (1000 / 102) 2 ∧
    entryQuantityAtTick .buy 2 1000 102 2 = 99 / 10 ∧
    roundToPrecision (1000 / 102) 2 = 49 / 5 ∧
    entryQuantityAtTick .buy 2 1000 101 1 = roundToPrecision (1000 / 101) 2 := by
  refine ⟨?_, ?_, ?_, ?_⟩ <;>
    norm_num [entryQuantityAtTick, submittedEntryQuantity, calculateQuantity,
      reconstructedCurrentPrice, roundToPrecision, round_eq]

/-- The open mid-ladder position used to exercise the trigger runner. -/
def openLadderPosition : Position where
  status := true
  entry_price := some 100
  triggers := [101, 102]
  stop_prices := [99, 100]
  trigger_side := some .long
  lock_close_price := some 100
  movement_threshold := some 1
  is_placing_stop_loss_running := false

/-- C10.  `AccountManager.updatePosition` throws when the account name or the
symbol is absent from the stored data (the in-memory state is only replaced
on `.ok`, so an error leaves it unchanged); when both exist it overrides
exactly the fields present in the patch, retains every other field of that
position, and leaves every other (account, symbol) position untouched. -/
theorem AccountManager_updatePosition_spec (data : AccountData)
    (name symbol : String) (patch : PositionPatch) :
    (getPositionData data name symbol = none →
      ∃ msg, updatePosition data name symbol patch = .error msg) ∧
    (∀ pos, getPositionData data name symbol = some pos →
      ∃ d, updatePosition data name symbol patch = .ok d ∧
        getPositionData d name symbol = some (applyPatch pos patch) ∧
        (∀ n s, ¬(n = name ∧ s = symbol) →
          getPositionData d n s = getPositionData data n s) ∧
        (applyPatch pos patch).status = patch.status.getD pos.status ∧
        (applyPatch pos patch).entry_price = patch.entry_price.getD pos.entry_price ∧
        (applyPatch pos patch).triggers = patch.triggers.getD pos.triggers ∧
        (applyPatch pos patch).stop_prices = patch.stop_prices.getD pos.stop_prices ∧
        (applyPatch pos patch).trigger_side = patch.trigger_side.getD pos.trigger_side ∧
        (applyPatch pos patch).lock_close_price =
          patch.lock_close_price.getD pos.lock_close_price ∧
        (applyPatch pos patch).movement_threshold =
          patch.movement_threshold.getD pos.movement_threshold ∧
        (applyPatch pos patch).is_placing_stop_loss_running =
          patch.is_placing_stop_loss_running.getD pos.is_placing_stop_loss_running) := by
  constructor
  · intro hnone
    rw [getPositionData] at hnone
    cases hacc : getAccountData data name with
    | none =>
      exact ⟨s!"Account for {name} does not exist.", by rw [updatePosition, hacc]⟩
    | some account =>
      simp only [hacc] at hnone
      exact ⟨s!"Symbol {symbol} does not exist for account {name}.",
        by simp [updatePosition, hacc, hnone]⟩
  · intro pos hpos
    obtain ⟨d, h1, h2, h3⟩ := updatePosition_ok data name symbol patch pos hpos
    exact ⟨d, h1, h2, h3, rfl, rfl, rfl, rfl, rfl, rfl, rfl, rfl⟩

/-- Concrete account data with one account holding one symbol. -/
def sampleData : AccountData := [("alpha", ⟨[("XRPUSDT", initialPosition)]⟩)]

/-- C10 witness: on `sampleData`, updating a missing symbol errors, and
updating the present (account, symbol) with an armed-style patch merges
exactly the patched fields. -/
theorem AccountManager_updatePosition_spec_witness :
    (getPositionData sampleData "alpha" "BTCUSDT" = none ∧
      (∃ msg, updatePosition sampleData "alpha" "BTCUSDT" (armPatch 100 2) =
        .error msg)) ∧
    (getPositionData sampleData "alpha" "XRPUSDT" = some initialPosition ∧
      (∃ d, updatePosition sampleData "alpha" "XRPUSDT" (armPatch 100 2) = .ok d ∧
        getPositionData d "alpha" "XRPUSDT" =
          some (applyPatch initialPosition (armPatch 100 2)) ∧
        (∀ n s, ¬(n = "alpha" ∧ s = "XRPUSDT") →
          getPositionData d n s = getPositionData sampleData n s) ∧
        (applyPatch initialPosition (armPatch 100 2)).status =
          (armPatch 100 2).status.getD initialPosition.status ∧
        (applyPatch initialPosition (armPatch 100 2)).entry_price =
          (armPatch 100 2).entry_price.getD initialPosition.entry_price ∧
        (applyPatch initialPosition (armPatch 100 2)).triggers =
          (armPatch 100 2).triggers.getD initialPosition.triggers ∧
        (applyPatch initialPosition (armPatch 100 2)).stop_prices =
          (armPatch 100 2).stop_prices.getD initialPosition.stop_prices ∧
        (applyPatch initialPosition (armPatch 100 2)).trigger_side =
          (armPatch 100 2).trigger_side.getD initialPosition.trigger_side ∧
        (applyPatch initialPosition (armPatch 100 2)).lock_close_price =
          (armPatch 100 2).lock_close_price.getD initialPosition.lock_close_price ∧
        (applyPatch initialPosition (armPatch 100 2)).movement_threshold =
          (armPatch 100 2).movement_threshold.getD initialPosition.movement_threshold ∧
        (applyPatch initialPosition (armPatch 100 2)).is_placing_stop_loss_running =
          (armPatch 100 2).is_placing_stop_loss_running.getD
            initialPosition.is_placing_stop_loss_running)) :=
  ⟨⟨rfl, (AccountManager_updatePosition_spec sampleData "alpha" "BTCUSDT"
      (armPatch 100 2)).1 rfl⟩,
   rfl, (AccountManager_updatePosition_spec sampleData "alpha" "XRPUSDT"
      (armPatch 100 2)).2 initialPosition rfl⟩

/-- C8.  Whenever the user stream reports `positionAmount == 0` for a symbol
with a stored position, reconciliation resets that position to fully
cleared idle — `status` false and `triggers`, `stop_prices`,
`lock_close_price`, `movement_threshold`, `entry_price`, `trigger_side` all
wiped — regardless of its prior state. -/
theorem handleAccountUpdate_flat_reset (data : AccountData) (name : String)
    (u : PositionUpdate) (pos : Position)
    (hamt : u.positionAmount = 0)
    (hpos : getPositionData data name u.symbol = some pos) :
    ∃ d, handleAccountUpdateOne data name u = .ok d ∧
      getPositionData d name u.symbol = some
        { status := false
          entry_price := none
          triggers := []
          stop_prices := []
          trigger_side := none
          lock_close_price := none
          movement_threshold := none
          is_placing_stop_loss_running := pos.is_placing_stop_loss_running } := by
  obtain ⟨d, h1, h2, _⟩ := updatePosition_ok data name u.symbol flatResetPatch pos hpos
  refine ⟨d, ?_, ?_⟩
  · rw [handleAccountUpdateOne, if_pos hamt]
    exact h1
  · rw [h2]
    rfl

/-- C8 witness: an open mid-ladder position flattened by the exchange. -/
theorem handleAccountUpdate_flat_reset_witness :
    (⟨"XRPUSDT", 0, 0⟩ : PositionUpdate).positionAmount = 0 ∧
    getPositionData [("alpha", ⟨[("XRPUSDT", openLadderPosition)]⟩)] "alpha"
      (⟨"XRPUSDT", 0, 0⟩ : PositionUpdate).symbol = some openLadderPosition ∧
    ∃ d, handleAccountUpdateOne [("alpha", ⟨[("XRPUSDT", openLadderPosition)]⟩)]
        "alpha" ⟨"XRPUSDT", 0, 0⟩ = .ok d ∧
      getPositionData d "alpha" (⟨"XRPUSDT", 0, 0⟩ : PositionUpdate).symbol = some
        { status := false
          entry_price := none
          triggers := []
          stop_prices := []
          trigger_side := none
          lock_close_price := none
          movement_threshold := none
          is_placing_stop_loss_running := openLadderPosition.is_placing_stop_loss_running } :=
  ⟨rfl, rfl,
    handleAccountUpdate_flat_reset [("alpha", ⟨[("XRPUSDT", openLadderPosition)]⟩)]
      "alpha" ⟨"XRPUSDT", 0, 0⟩ openLadderPosition rfl rfl⟩

/-- A gateway on which every network call raises a transport error. -/
def throwingGateway : ℕ → GatewayOutcome := fun _ => ⟨.error (), .ok (), .ok ()⟩

/-- C3.  `placeTrailStopLoss` can only return `true` or throw — it never
returns `false` — so the 3-attempt retry loop of `checkTriggers` never
iterates and its close-on-exhaustion branch is unreachable.  On a tick
crossing the first trigger with a transport failure, exactly one placement
attempt is made, the exception aborts processing, no market-order close is
issued, and the ladder heads are NOT removed (removal happens only on a
successful placement). -/
lemma checkTriggersRun_throwing :
    checkTriggersRun false (some openLadderPosition) 101 throwingGateway =
      ⟨some openLadderPosition, 1, false⟩ := by
  rw [checkTriggersRun]
  rw [if_neg (by simp [openLadderPosition])]
  rw [if_neg (by simp)]
  have hfire : (if openLadderPosition.trigger_side = some Side.long then
      (101 : ℚ) ≥ openLadderPosition.triggers.headD 0
      else (101 : ℚ) ≤ openLadderPosition.triggers.headD 0) = True := by
    simp [openLadderPosition]
  simp only [hfire, if_true]
  rfl

theorem checkTriggers_transport_failure_no_retry :
    (∀ (g : GatewayOutcome) (sp : ℚ), placeTrailStopLoss g sp ≠ .ok false) ∧
    checkTriggersRun false (some openLadderPosition) 101 throwingGateway =
      ⟨some openLadderPosition, 1, false⟩ := by
  constructor
  · intro g sp
    obtain ⟨oo, cc, ss⟩ := g
    cases oo <;> cases cc <;> cases ss <;>
      simp only [placeTrailStopLoss, ne_eq] <;>
      first
        | (split_ifs <;> simp)
        | simp
  · exact checkTriggersRun_throwing

/-- A closed candle with a 100% move (open 1, close 2). -/
def candleUp : Candle := ⟨60, 1, 2, 1, 2, 1, 120⟩

/-- A spec-level open position (status `opened`). -/
def specOpenPosition : SpecPosition :=
  ⟨.opened, some 100, [101], [99], some .long, some 100, some 1⟩

/-- A spec-level idle position. -/
def specIdlePosition : SpecPosition := ⟨.idle, none, [], [], none, none, none⟩

/-- C2.  When the movement detector triggers on closed candle `c`, every
account whose position has status `entering` or `open` is left completely
unchanged, and every other account's position gets
`lock_close_price = c.close`, `movement_threshold = dynamic_threshold / 2`
and status `armed`. -/
theorem detector_arm_frame (threshold : ℚ) (numPrev : ℕ) (hist : List Candle)
    (c : Candle) (accounts : List (String × SpecPosition))
    (htrig : processCandles threshold numPrev hist c = some true) :
    (detectorStep threshold numPrev hist c accounts).length = accounts.length ∧
    ∀ i e, accounts.get? i = some e →
      ((e.2.status = .entering ∨ e.2.status = .opened →
        (detectorStep threshold numPrev hist c accounts).get? i = some e) ∧
       (¬(e.2.status = .entering ∨ e.2.status = .opened) →
        (detectorStep threshold numPrev hist c accounts).get? i = some
          (e.1, { e.2 with
                   lock_close_price := some c.close
                   movement_threshold := some (dynamicThreshold threshold hist / 2)
                   status := .armed }))) := by
  rw [detectorStep, if_pos htrig]
  constructor
  · exact List.length_map _ _
  · intro i e he
    constructor
    · intro hst
      rw [armAccountsOnTrigger, List.get?_map, he]
      simp [hst]
    · intro hst
      rw [armAccountsOnTrigger, List.get?_map, he]
      simp [hst]

/-- C2 witness: a detector trigger (quiet history, 100%-move candle) over one
open account A and one idle account B: A untouched, B armed. -/
theorem detector_arm_frame_witness :
    processCandles 1 1 [candleA] candleUp = some true ∧
    ((detectorStep 1 1 [candleA] candleUp
        [("A", specOpenPosition), ("B", specIdlePosition)]).length =
      ([("A", specOpenPosition), ("B", specIdlePosition)] :
        List (String × SpecPosition)).length ∧
     ∀ i e, ([("A", specOpenPosition), ("B", specIdlePosition)] :
          List (String × SpecPosition)).get? i = some e →
       ((e.2.status = .entering ∨ e.2.status = .opened →
         (detectorStep 1 1 [candleA] candleUp
            [("A", specOpenPosition), ("B", specIdlePosition)]).get? i = some e) ∧
        (¬(e.2.status = .entering ∨ e.2.status = .opened) →
         (detectorStep 1 1 [candleA] candleUp
            [("A", specOpenPosition), ("B", specIdlePosition)]).get? i = some
           (e.1, { e.2 with
                    lock_close_price := some candleUp.close
                    movement_threshold :=
                      some (dynamicThreshold 1 [candleA] / 2)
                    status := .armed })))) := by
  have htrig : processCandles 1 1 [candleA] candleUp = some true := by
    rw [processCandles, if_neg (by simp)]
    simp only [Option.some.injEq, decide_eq_true_eq]
    constructor <;>
      norm_num [diffPct, dynamicThreshold, pastDiffsSum, candleA, candleUp]
  exact ⟨htrig, detector_arm_frame 1 1 [candleA] candleUp
    [("A", specOpenPosition), ("B", specIdlePosition)] htrig⟩

lemma checkTriggersRun_pos_cases (processing : Bool) (pos : Position) (p : ℚ)
    (gw : ℕ → GatewayOutcome) :
    (checkTriggersRun processing (some pos) p gw).pos = some pos ∨
    (checkTriggersRun processing (some pos) p gw).pos = some
      { pos with triggers := pos.triggers.tail,
                 stop_prices := pos.stop_prices.tail } := by
  simp only [checkTriggersRun]
  repeat' split
  all_goals first
    | exact Or.inl rfl
    | exact Or.inr rfl

/-- C9.  `len(triggers) == len(stop_prices)` holds after every state-mutating
operation: position initialization, detector arming (which touches neither
list), storing the computed ladder (both lists have the requested length),
a trigger-runner advance (which pops both heads together or leaves both
lists alone), and user-stream reconciliation (which wipes both lists or
touches neither). -/
theorem position_ladder_lists_aligned :
    (initialPosition.triggers.length = initialPosition.stop_prices.length) ∧
    (∀ (pos : Position) (cp dt : ℚ),
      (applyPatch pos (armPatch cp dt)).triggers = pos.triggers ∧
      (applyPatch pos (armPatch cp dt)).stop_prices = pos.stop_prices) ∧
    (∀ (E : ℚ) (dir : Side) (m f : ℚ) (N : ℕ) (pos : Position),
      (applyPatch pos (ladderPatch (calculateTriggers E dir m f N).1
          (calculateTriggers E dir m f N).2 dir)).triggers.length =
      (applyPatch pos (ladderPatch (calculateTriggers E dir m f N).1
          (calculateTriggers E dir m f N).2 dir)).stop_prices.length) ∧
    (∀ (pos : Position), pos.triggers.length = pos.stop_prices.length →
      ∀ (processing : Bool) (p : ℚ) (gw : ℕ → GatewayOutcome) (pos2 : Position),
        (checkTriggersRun processing (some pos) p gw).pos = some pos2 →
        pos2.triggers.length = pos2.stop_prices.length) ∧
    (∀ (pos : Position) (u : PositionUpdate),
      pos.triggers.length = pos.stop_prices.length →
      (applyPatch pos (if u.positionAmount = 0 then flatResetPatch
          else openUpdatePatch u.entryPrice)).triggers.length =
      (applyPatch pos (if u.positionAmount = 0 then flatResetPatch
          else openUpdatePatch u.entryPrice)).stop_prices.length) := by
  refine ⟨rfl, fun pos cp dt => ⟨rfl, rfl⟩, ?_, ?_, ?_⟩
  · intro E dir m f N pos
    show (calculateTriggers E dir m f N).1.length =
      (calculateTriggers E dir m f N).2.length
    simp only [calculateTriggers]
    rw [(calculateTriggersLoop_length E dir m f N 1 _).1,
      (calculateTriggersLoop_length E dir m f N 1 _).2]
  · intro pos hlen processing p gw pos2 h
    rcases checkTriggersRun_pos_cases processing pos p gw with hc | hc <;>
      rw [hc] at h <;> simp only [Option.some.injEq] at h <;> subst h
    · exact hlen
    · simp only [List.length_tail]
      omega
  · intro pos u hlen
    by_cases h0 : u.positionAmount = 0
    · simp [h0, applyPatch, flatResetPatch, PositionPatch.empty]
    · simpa [h0, applyPatch, openUpdatePatch, PositionPatch.empty] using hlen

/-- C9 witness: the open mid-ladder position through a trigger-runner
invocation (transport failure leaves both lists intact) and a flat
reconciliation. -/
theorem position_ladder_lists_aligned_witness :
    openLadderPosition.triggers.length = openLadderPosition.stop_prices.length ∧
    (checkTriggersRun false (some openLadderPosition) 101 throwingGateway).pos =
      some openLadderPosition ∧
    openLadderPosition.triggers.length = openLadderPosition.stop_prices.length ∧
    (applyPatch openLadderPosition
      (if (⟨"XRPUSDT", (0 : ℚ), 0⟩ : PositionUpdate).positionAmount = 0
        then flatResetPatch
        else openUpdatePatch (⟨"XRPUSDT", (0 : ℚ), 0⟩ :
          PositionUpdate).entryPrice)).triggers.length =
    (applyPatch openLadderPosition
      (if (⟨"XRPUSDT", (0 : ℚ), 0⟩ : PositionUpdate).positionAmount = 0
        then flatResetPatch
        else openUpdatePatch (⟨"XRPUSDT", (0 : ℚ), 0⟩ :
          PositionUpdate).entryPrice)).stop_prices.length := by
  refine ⟨rfl, ?_, ?_, ?_⟩
  · rw [checkTriggersRun_throwing]
  · exact position_ladder_lists_aligned.2.2.2.1 openLadderPosition rfl false 101
      throwingGateway openLadderPosition (by rw [checkTriggersRun_throwing])
  · exact position_ladder_lists_aligned.2.2.2.2 openLadderPosition
      ⟨"XRPUSDT", 0, 0⟩ rfl

end Binancets
